import Mathlib

/-!
Verification of the CNTK ImageDatasetReader data source
(Source/Readers/ImageDatasetReader/ImageDatasetReader.cpp).

The development shallowly embeds the epoch-sharding arithmetic of
DataSource::StartEpoch, the minibatch sample-count protocol of
DataSource::GetNextSequences, and the per-sample dense/sparse sequence
construction (including the ignore-mask side channel) as executable Lean
functions, and proves the documented properties about them.

Machine integers (size_t, int) are modelled as Nat and Int; where the C++
code relies on unsigned wraparound (the size_t comparison with
outChannels - 1) the wraparound is made explicit with mod 2 ^ 64.
Fatal RuntimeError calls are modelled as an Except error result.
Float label values are modelled by the integers they are cast to with
static_cast, and the constant 0.0f / 1.0f payloads of mask and sparse
value buffers are modelled as rationals; no floating-point arithmetic is
performed on them in the source.
-/

/-- Fatal errors raised via RuntimeError in ImageDatasetReader.cpp,
one constructor per distinct RuntimeError call site modelled here. -/
inductive ReaderError where
  | emptyBlobNames
  | blobNotFound
  | prevEpochNotFinished
  | rankChanged
  | numberOfWorkersChanged
  | minibatchNotDivisible
  | minibatchSizeMismatch
  | moreWorkersThanSamples
  | appendingMoreThanOneSample
  | denseInputWithIgnore
  | sparseNotFollowedByIgnore
  | unexpectedSparseDataCount
  | invalidChannelValue
deriving DecidableEq, Repr

/-- Mutable fields of class DataSource that the epoch/minibatch protocol
reads and writes (lines 669-697 of ImageDatasetReader.cpp). -/
structure DataSource where
  m_minibatchSize : Nat
  m_appendLastMinibatch : Bool
  m_workerRank : Nat
  m_numberOfWorkers : Nat
  m_epochSize : Nat
  m_currEpochSampleCount : Nat
  m_epochOverride : Bool
deriving DecidableEq, Repr

/-- Fields of EpochConfiguration read by DataSource::StartEpoch. -/
structure EpochConfiguration where
  m_workerRank : Nat
  m_numberOfWorkers : Nat
  m_minibatchSizeInSamples : Nat
  m_totalEpochSizeInSamples : Nat
deriving DecidableEq, Repr

/-- Modelled from the spec: the reserved sentinel value for total epoch
size meaning that the entire dataset is used for the epoch.  The constant
requestDataSize is declared in DataReader.h, which is not part of the
sources here; only its distinguishedness matters to the code. -/
def requestDataSize : Nat := 0

/-- DataSource::UseAllExamplesFromDatasetForEpoch (lines 663-667):
the epoch size equals the magic constant requestDataSize exactly when all
examples of the dataset are to be used for the epoch. -/
def DataSource.UseAllExamplesFromDatasetForEpoch (config : EpochConfiguration) : Bool :=
  config.m_totalEpochSizeInSamples == requestDataSize

/-- Resolution of the global epoch size in DataSource::StartEpoch
(lines 383-400): the sentinel resolves to workerCount times the loader
example count in epoch-override mode and to the loader example count
otherwise; a non-sentinel value is taken literally. -/
def resolveGlobalEpochSize (epochOverride : Bool) (numberOfWorkers : Nat)
    (loaderExamplesCount : Nat) (totalEpochSizeInSamples : Nat) : Nat :=
  if totalEpochSizeInSamples = requestDataSize then
    if epochOverride then numberOfWorkers * loaderExamplesCount
    else loaderExamplesCount
  else totalEpochSizeInSamples

/-- Epoch-share computation of DataSource::StartEpoch (lines 403-430):
given the resolved global epoch size, the minibatch size, the worker count
and this worker rank, returns thisReaderEpochSize together with the
m_appendLastMinibatch flag. -/
def thisReaderEpochShare (epochSize minibatchSize numberOfWorkers workerRank : Nat) :
    Nat × Bool :=
  let base := epochSize / minibatchSize * minibatchSize / numberOfWorkers
  if epochSize % minibatchSize ≠ 0 then
    let partOfMiniBatch := epochSize % minibatchSize / numberOfWorkers
    let allWorkersActiveInLastMinibatch : Bool := partOfMiniBatch != 0
    let afterPart := base + partOfMiniBatch
    if epochSize % minibatchSize % numberOfWorkers ≠ 0 then
      if workerRank < epochSize % minibatchSize % numberOfWorkers then
        (afterPart + 1, !allWorkersActiveInLastMinibatch)
      else
        (afterPart, false)
    else
      (afterPart, false)
  else
    (base, false)

/-- DataSource::StartEpoch (lines 359-434): validates the protocol
preconditions, resolves the global epoch size, computes this worker
share, and resets the consumed-sample counter. -/
def DataSource.StartEpoch (s : DataSource) (loaderExamplesCount : Nat)
    (config : EpochConfiguration) : Except ReaderError DataSource :=
  if s.m_epochSize ≠ s.m_currEpochSampleCount then .error .prevEpochNotFinished
  else if s.m_workerRank ≠ config.m_workerRank then .error .rankChanged
  else if s.m_numberOfWorkers ≠ config.m_numberOfWorkers then .error .numberOfWorkersChanged
  else
    let minibatchSize := config.m_minibatchSizeInSamples
    if minibatchSize % s.m_numberOfWorkers ≠ 0 then .error .minibatchNotDivisible
    else
      let globalEpochSize :=
        resolveGlobalEpochSize s.m_epochOverride s.m_numberOfWorkers
          loaderExamplesCount config.m_totalEpochSizeInSamples
      let share := thisReaderEpochShare globalEpochSize minibatchSize
          s.m_numberOfWorkers s.m_workerRank
      .ok { s with
        m_minibatchSize := minibatchSize,
        m_appendLastMinibatch := share.2,
        m_epochSize := share.1,
        m_currEpochSampleCount := 0 }

/-- Sample-count protocol of DataSource::GetNextSequences (lines 474-506):
returns the number of samples this call consumes together with the
end-of-epoch flag, or the fatal error it raises. -/
def DataSource.GetNextSequencesPlan (s : DataSource) (totalSampleCount : Nat) :
    Except ReaderError (Nat × Bool) :=
  if totalSampleCount ≠ s.m_minibatchSize then .error .minibatchSizeMismatch
  else
    let sampleCount := totalSampleCount / s.m_numberOfWorkers
    if sampleCount = 0 then .error .moreWorkersThanSamples
    else
      let remainingEpochSamples := s.m_epochSize - s.m_currEpochSampleCount
      if s.m_appendLastMinibatch = true ∧ remainingEpochSamples ≤ 2 * sampleCount then
        if remainingEpochSamples ≠ sampleCount + 1 then .error .appendingMoreThanOneSample
        else .ok (remainingEpochSamples, true)
      else if s.m_appendLastMinibatch = false ∧ remainingEpochSamples ≤ sampleCount then
        .ok (remainingEpochSamples, true)
      else
        .ok (sampleCount, false)

/-- Counting effect of DataSource::GetNextSequences: the consumed-sample
counter is incremented by the consumed sample count (line 658), and the
end-of-epoch flag of the returned Sequences is reported. -/
def DataSource.GetNextSequencesCount (s : DataSource) (totalSampleCount : Nat) :
    Except ReaderError (DataSource × Bool) :=
  match s.GetNextSequencesPlan totalSampleCount with
  | .error er => .error er
  | .ok (sampleCount, endOfEpoch) =>
    .ok ({ s with m_currEpochSampleCount := s.m_currEpochSampleCount + sampleCount },
         endOfEpoch)

/-- State of class ImageDatasetExample (lines 27-103): blob names of
interest, one buffer per blob, one shape triple (channels, height, width)
per blob. -/
structure ImageDatasetExample where
  m_blobNames : List String
  m_blobs : List (List ℚ)
  m_blob_shapes : List (Nat × Nat × Nat)
deriving DecidableEq, Repr

/-- ImageDatasetExample::BlobIndexFromName (lines 78-94): index of the
first blob with the given name, fatal when no blob has that name. -/
def ImageDatasetExample.BlobIndexFromName (e : ImageDatasetExample)
    (blobName : String) : Except ReaderError Nat :=
  match e.m_blobNames.findIdx? (fun n => n == blobName) with
  | some index => .ok index
  | none => .error .blobNotFound

/-- ImageDatasetExample::GetBlobShape (lines 62-67): the recorded shape of
the named blob. -/
def ImageDatasetExample.GetBlobShape (e : ImageDatasetExample)
    (blobName : String) : Except ReaderError (Nat × Nat × Nat) :=
  match e.BlobIndexFromName blobName with
  | .error er => .error er
  | .ok index => .ok (e.m_blob_shapes.getD index (0, 0, 0))

/-- ImageDatasetExample::SwapBlobData (lines 69-74): exchanges the buffer
of the named blob with the given outer vector; returns the updated
adapter together with the buffer the blob slot held before the swap. -/
def ImageDatasetExample.SwapBlobData (e : ImageDatasetExample)
    (blobName : String) (outer : List ℚ) :
    Except ReaderError (ImageDatasetExample × List ℚ) :=
  match e.BlobIndexFromName blobName with
  | .error er => .error er
  | .ok index =>
    .ok ({ e with m_blobs := e.m_blobs.set index outer }, e.m_blobs.getD index [])

/-- Dense sequence (struct DenseSequenceDataIds, lines 106-115, plus the
base-class fields filled at lines 547-551). -/
structure DenseSequenceDataIds where
  m_id : Nat
  m_numberOfSamples : Nat
  m_sampleLayout : Nat × Nat × Nat
  m_ownedData : List ℚ
deriving DecidableEq, Repr

/-- Sparse sequence (struct SparseSequenceDataIds, lines 118-128, plus the
fields filled at lines 602-640). -/
structure SparseSequenceDataIds where
  m_id : Nat
  m_numberOfSamples : Nat
  m_nnzCounts : List Nat
  m_totalNnzCount : Nat
  m_valuesMemory : List ℚ
  m_indicesMemory : List Nat
deriving DecidableEq, Repr

/-- Dense-stream branch of DataSource::GetNextSequences (lines 530-557):
fatal when the descriptor declares an ignore sub-stream; otherwise the
blob buffer is moved into a fresh dense sequence via swap, with
numberOfSamples 1 and the probed blob shape reversed. -/
def buildDenseSequence (e : ImageDatasetExample) (datasetName : String)
    (hasIgnoreStream : Bool) (ismpl : Nat) :
    Except ReaderError (DenseSequenceDataIds × ImageDatasetExample) :=
  if hasIgnoreStream then .error .denseInputWithIgnore
  else
    match e.GetBlobShape datasetName with
    | .error er => .error er
    | .ok shape =>
      match e.SwapBlobData datasetName [] with
      | .error er => .error er
      | .ok (e2, data) =>
        .ok ({ m_id := ismpl,
               m_numberOfSamples := 1,
               m_sampleLayout := (shape.2.2, shape.2.1, shape.1),
               m_ownedData := data }, e2)

/-- Modulus of the size_t arithmetic the source is compiled with. -/
def sizeTModulus : Nat := 2 ^ 64

/-- Range check of line 632, `c < 0 || c > outChannels - 1`: outChannels
is a size_t, so for nonnegative c the comparison happens after the
unsigned wraparound of outChannels - 1. -/
def channelOutOfRange (outChannels : Nat) (c : Int) : Bool :=
  c < 0 || c.toNat > (outChannels + sizeTModulus - 1) % sizeTModulus

/-- Body of the index-conversion loop (lines 617-639) for one position:
position inz with label c maps to index inz when the label equals the
configured ignore sentinel, is fatal when out of channel range, and maps
to the flat one-hot index c * spatialSize + inz otherwise. -/
def sparseIndexAt (outChannels spatialSize : Nat) (ignoreLabel : Option Int)
    (inz : Nat) (c : Int) : Except ReaderError Nat :=
  match ignoreLabel with
  | some ig =>
    if c = ig then .ok inz
    else if channelOutOfRange outChannels c then .error .invalidChannelValue
    else .ok (c.toNat * spatialSize + inz)
  | none =>
    if channelOutOfRange outChannels c then .error .invalidChannelValue
    else .ok (c.toNat * spatialSize + inz)

/-- Index-conversion loop of lines 617-639, started at position start:
converts every label to its sparse index or raises the first fatal
error. -/
def convertIndices (outChannels spatialSize : Nat) (ignoreLabel : Option Int) :
    Nat → List Int → Except ReaderError (List Nat)
  | _, [] => .ok []
  | inz, c :: rest =>
    match sparseIndexAt outChannels spatialSize ignoreLabel inz c with
    | .error er => .error er
    | .ok idx =>
      match convertIndices outChannels spatialSize ignoreLabel (inz + 1) rest with
      | .error er => .error er
      | .ok idxs => .ok (idx :: idxs)

/-- Sparse-stream branch of DataSource::GetNextSequences (lines 561-651)
for one sample: dims is the input stream layout (spatial0, spatial1,
outChannels), data the label buffer moved out of the adapter (labels
after the static_cast at line 619).  Produces the sparse sequence and,
when an ignore sub-stream is configured, the dense mask sequence that
starts as all ones and is zeroed at every sentinel position. -/
def buildSparseSequence (dims : Nat × Nat × Nat) (ignoreLabel : Option Int)
    (ismpl : Nat) (data : List Int) :
    Except ReaderError (SparseSequenceDataIds × Option DenseSequenceDataIds) :=
  let spatialSize := dims.1 * dims.2.1
  let outChannels := dims.2.2
  if data.length ≠ spatialSize then .error .unexpectedSparseDataCount
  else
    match convertIndices outChannels spatialSize ignoreLabel 0 data with
    | .error er => .error er
    | .ok indices =>
      .ok ({ m_id := ismpl,
             m_numberOfSamples := 1,
             m_nnzCounts := [data.length],
             m_totalNnzCount := data.length,
             m_valuesMemory := List.replicate data.length (1 : ℚ),
             m_indicesMemory := indices },
           ignoreLabel.map fun ig =>
             { m_id := ismpl,
               m_numberOfSamples := 1,
               m_sampleLayout := (dims.1, dims.2.1, 1),
               m_ownedData := data.map fun c => if c = ig then (0 : ℚ) else 1 })

/-- Expected flat sparse index for position inz holding label c: the
ignore sentinel maps to the position itself (channel 0), every other
label to label * spatialSize + position.  Statement-side companion of
sparseIndexAt. -/
def oneHotIndex (spatialSize : Nat) (ignoreLabel : Option Int) (inz : Nat) (c : Int) : Nat :=
  match ignoreLabel with
  | some ig => if c = ig then inz else c.toNat * spatialSize + inz
  | none => c.toNat * spatialSize + inz

/-! ## Helper lemmas about the epoch-share arithmetic -/

/-- Closed form of the epoch share computed by thisReaderEpochShare. -/
theorem thisReaderEpochShare_fst (E M w rank : Nat) :
    (thisReaderEpochShare E M w rank).1
      = E / M * M / w + E % M / w + (if rank < E % M % w then 1 else 0) := by
  unfold thisReaderEpochShare
  split_ifs <;> simp_all

/-- Characterization of the append-last-minibatch flag computed by
thisReaderEpochShare. -/
theorem thisReaderEpochShare_snd (E M w rank : Nat) :
    (thisReaderEpochShare E M w rank).2 = true ↔
      0 < E % M ∧ E % M / w = 0 ∧ rank < E % M % w := by
  unfold thisReaderEpochShare
  split_ifs with h1 h2 h3 <;> simp_all <;> omega

/-- Sum of the indicator of rank < m over ranks below w. -/
theorem sum_if_lt_eq (w m : Nat) (h : m ≤ w) :
    (∑ rank ∈ Finset.range w, if rank < m then 1 else 0) = m := by
  induction w with
  | zero =>
    simp only [Finset.range_zero, Finset.sum_empty]
    omega
  | succ n ih =>
    rw [Finset.sum_range_succ]
    by_cases h' : m ≤ n
    · rw [ih h']
      have : ¬ n < m := by omega
      simp [this]
    · have hm : m = n + 1 := by omega
      subst hm
      have : ∀ rank ∈ Finset.range n, (if rank < n + 1 then 1 else 0) = 1 := by
        intro rank hr
        simp only [Finset.mem_range] at hr
        simp [Nat.lt_succ_of_lt hr]
      rw [Finset.sum_congr rfl this]
      simp

/-! ## Claims about the epoch-share arithmetic (C1, C2, C4) -/

/-- C1: for every globalEpochSize, minibatchSize and workerCount (at least
one worker) with minibatchSize divisible by workerCount, the per-worker
epoch sizes computed by StartEpoch sum over all ranks to exactly the
global epoch size, whether or not the minibatch size divides the global
epoch size: every sample is assigned to exactly one worker. -/
theorem C1_epoch_shares_sum_to_global (E M w : Nat) (hw : 0 < w) (hdiv : M % w = 0) :
    (∑ rank ∈ Finset.range w, (thisReaderEpochShare E M w rank).1) = E := by
  have hdvd : w ∣ E / M * M := Dvd.dvd.mul_left (Nat.dvd_of_mod_eq_zero hdiv) (E / M)
  have key : (∑ rank ∈ Finset.range w, (thisReaderEpochShare E M w rank).1)
      = w * (E / M * M / w) + (w * (E % M / w) + E % M % w) := by
    rw [Finset.sum_congr rfl fun rank _ => thisReaderEpochShare_fst E M w rank,
      Finset.sum_add_distrib, Finset.sum_add_distrib, Finset.sum_const, Finset.sum_const,
      Finset.card_range, smul_eq_mul, sum_if_lt_eq w (E % M % w) (Nat.mod_lt _ hw).le]
    ring
  rw [key, Nat.mul_div_cancel' hdvd, Nat.div_add_mod, Nat.mul_comm (E / M) M]
  exact Nat.div_add_mod E M

/-- C1 witness: concrete instance with globalEpochSize 20, minibatchSize 6
and three workers; the hypotheses hold and the shares sum to 20. -/
theorem C1_epoch_shares_sum_to_global_witness :
    0 < 3 ∧ 6 % 3 = 0 ∧
      (∑ rank ∈ Finset.range 3, (thisReaderEpochShare 20 6 3 rank).1) = 20 :=
  ⟨by decide, by decide, C1_epoch_shares_sum_to_global 20 6 3 (by decide) (by decide)⟩

/-- C2: for every globalEpochSize E and positive minibatchSize M divisible
by the worker count, the per-worker epoch size computed by StartEpoch is
floor(E/M)*M/workerCount plus floor(r/workerCount) plus one extra sample
exactly for ranks below r mod workerCount where r = E mod M, and
appendLastMinibatch is set if and only if r > 0, floor(r/workerCount) = 0
and the rank is below r mod workerCount. -/
theorem C2_share_formula_and_append_flag (E M w rank : Nat) (hM : 0 < M)
    (hdiv : M % w = 0) :
    (thisReaderEpochShare E M w rank).1
        = E / M * M / w + E % M / w + (if rank < E % M % w then 1 else 0)
      ∧ ((thisReaderEpochShare E M w rank).2 = true ↔
        0 < E % M ∧ E % M / w = 0 ∧ rank < E % M % w) :=
  ⟨thisReaderEpochShare_fst E M w rank, thisReaderEpochShare_snd E M w rank⟩

/-- C2 witness: for globalEpochSize 20, minibatchSize 6, three workers and
rank 0, the hypotheses hold, the formula yields 7 samples, and the
append-last-minibatch flag is set. -/
theorem C2_share_formula_and_append_flag_witness :
    0 < 6 ∧ 6 % 3 = 0 ∧ (thisReaderEpochShare 20 6 3 0).1 = 7
      ∧ (thisReaderEpochShare 20 6 3 0).2 = true :=
  ⟨by decide, by decide,
    ((C2_share_formula_and_append_flag 20 6 3 0 (by decide) (by decide)).1).trans (by decide),
    ((C2_share_formula_and_append_flag 20 6 3 0 (by decide) (by decide)).2).mpr (by decide)⟩

/-- C4 counterexample: with globalEpochSize 100, minibatchSize 10 and
three workers, StartEpoch raises the fatal minibatch-divisibility error
(10 is not divisible by 3) instead of computing any share, and the share
arithmetic applied to those numbers gives base floor(100/10)*10/3 = 33,
not the 30 the claim states. -/
theorem C4_counterexample :
    DataSource.StartEpoch
        { m_minibatchSize := 0, m_appendLastMinibatch := false, m_workerRank := 0,
          m_numberOfWorkers := 3, m_epochSize := 0, m_currEpochSampleCount := 0,
          m_epochOverride := false } 0
        { m_workerRank := 0, m_numberOfWorkers := 3, m_minibatchSizeInSamples := 10,
          m_totalEpochSizeInSamples := 100 } = .error .minibatchNotDivisible
      ∧ (thisReaderEpochShare 100 10 3 0).1 = 33 ∧ (33 : Nat) ≠ 30 :=
  ⟨rfl, by decide, by decide⟩

/-- C4 amended: for globalEpochSize 100, minibatchSize 10 and three
workers, StartEpoch raises a fatal error because 10 is not divisible by 3;
the share arithmetic applied to those values gives base
floor(100/10)*10/3 = 33, remainder 0, hence per-worker size 33 for every
rank and sum 99. -/
theorem C4_amended_share_is_33 :
    DataSource.StartEpoch
        { m_minibatchSize := 0, m_appendLastMinibatch := false, m_workerRank := 0,
          m_numberOfWorkers := 3, m_epochSize := 0, m_currEpochSampleCount := 0,
          m_epochOverride := false } 0
        { m_workerRank := 0, m_numberOfWorkers := 3, m_minibatchSizeInSamples := 10,
          m_totalEpochSizeInSamples := 100 } = .error .minibatchNotDivisible
      ∧ 100 % 10 = 0
      ∧ thisReaderEpochShare 100 10 3 0 = (33, false)
      ∧ thisReaderEpochShare 100 10 3 1 = (33, false)
      ∧ thisReaderEpochShare 100 10 3 2 = (33, false)
      ∧ (∑ rank ∈ Finset.range 3, (thisReaderEpochShare 100 10 3 rank).1) = 99 := by
  refine ⟨rfl, by decide, by decide, by decide, by decide, ?_⟩
  decide


/-! ## Claims about the StartEpoch protocol (C8, C9) -/

/-- C8: StartEpoch raises a fatal error if and only if the previous epoch
consumed-sample counter differs from its epoch size, or the worker rank or
worker count differs from the values fixed at construction, or the new
minibatch size is not divisible by the worker count; on success the
consumed-sample counter is reset to 0. -/
theorem C8_StartEpoch_error_iff (s : DataSource) (n : Nat) (config : EpochConfiguration) :
    ((∃ er, s.StartEpoch n config = .error er) ↔
      (s.m_epochSize ≠ s.m_currEpochSampleCount
        ∨ s.m_workerRank ≠ config.m_workerRank
        ∨ s.m_numberOfWorkers ≠ config.m_numberOfWorkers
        ∨ config.m_minibatchSizeInSamples % s.m_numberOfWorkers ≠ 0))
    ∧ ∀ s2, s.StartEpoch n config = .ok s2 → s2.m_currEpochSampleCount = 0 := by
  by_cases h1 : s.m_epochSize = s.m_currEpochSampleCount
  case neg => simp [DataSource.StartEpoch, h1]
  by_cases h2 : s.m_workerRank = config.m_workerRank
  case neg => simp [DataSource.StartEpoch, h1, h2]
  by_cases h3 : s.m_numberOfWorkers = config.m_numberOfWorkers
  case neg => simp [DataSource.StartEpoch, h1, h2, h3]
  by_cases h4 : config.m_minibatchSizeInSamples % config.m_numberOfWorkers = 0
  case neg => simp [DataSource.StartEpoch, h1, h2, h3, h4]
  constructor
  · simp [DataSource.StartEpoch, h1, h2, h3, h4]
  · intro s2 h
    simp only [DataSource.StartEpoch, h1, h2, h3] at h
    simp [h4] at h
    subst h
    rfl

/-- C8 witness: a successful concrete StartEpoch call; the resulting
consumed-sample counter is 0. -/
theorem C8_StartEpoch_error_iff_witness :
    DataSource.StartEpoch ⟨0, false, 1, 2, 0, 0, false⟩ 8 ⟨1, 2, 4, 12⟩
        = .ok ⟨4, false, 1, 2, 6, 0, false⟩
      ∧ (⟨4, false, 1, 2, 6, 0, false⟩ : DataSource).m_currEpochSampleCount = 0 :=
  ⟨rfl, (C8_StartEpoch_error_iff ⟨0, false, 1, 2, 0, 0, false⟩ 8 ⟨1, 2, 4, 12⟩).2
      ⟨4, false, 1, 2, 6, 0, false⟩ rfl⟩

/-- C9: called with the reserved sentinel as total epoch size, the global
epoch size resolves to workerCount times the loader example count when
the epoch-override flag is set and to the loader example count otherwise;
a non-sentinel total epoch size is taken literally. -/
theorem C9_resolveGlobalEpochSize_cases (override : Bool) (w n total : Nat) :
    (total = requestDataSize →
      resolveGlobalEpochSize override w n total = if override then w * n else n)
    ∧ (total ≠ requestDataSize → resolveGlobalEpochSize override w n total = total) := by
  constructor <;> intro h <;> simp [resolveGlobalEpochSize, h]

/-- C9 witness: the three resolution cases at concrete values. -/
theorem C9_resolveGlobalEpochSize_cases_witness :
    resolveGlobalEpochSize true 3 5 requestDataSize = 15
      ∧ resolveGlobalEpochSize false 3 5 requestDataSize = 5
      ∧ resolveGlobalEpochSize true 3 5 9 = 9 := by
  refine ⟨?_, ?_, ?_⟩
  · have h := (C9_resolveGlobalEpochSize_cases true 3 5 requestDataSize).1 rfl
    simpa using h
  · have h := (C9_resolveGlobalEpochSize_cases false 3 5 requestDataSize).1 rfl
    simpa using h
  · exact (C9_resolveGlobalEpochSize_cases true 3 5 9).2 (by decide)

/-! ## Claims about the GetNextSequences counting protocol (C3, C10) -/

/-- C3: the sample-count protocol of GetNextSequences (lines 474-506 and
658) fails fatally if and only if the demanded count differs from the
configured minibatch size, or the per-worker sample count is zero, or
append-last-minibatch is set with the remaining epoch samples at most
twice the per-worker count but different from one more than it; otherwise
the append case with remaining equal to the per-worker count plus one
consumes all remaining samples and ends the epoch, the non-append case
with remaining at most the per-worker count consumes all remaining
samples and ends the epoch, and every other case consumes exactly the
per-worker count without ending the epoch. -/
theorem C3_GetNextSequences_count_protocol (s : DataSource) (total : Nat)
    (hinv : s.m_currEpochSampleCount ≤ s.m_epochSize) :
    ((∃ er, s.GetNextSequencesCount total = .error er) ↔
      (total ≠ s.m_minibatchSize
        ∨ total / s.m_numberOfWorkers = 0
        ∨ (s.m_appendLastMinibatch = true
            ∧ s.m_epochSize - s.m_currEpochSampleCount ≤ 2 * (total / s.m_numberOfWorkers)
            ∧ s.m_epochSize - s.m_currEpochSampleCount ≠ total / s.m_numberOfWorkers + 1)))
    ∧ (total = s.m_minibatchSize → total / s.m_numberOfWorkers ≠ 0 →
        ((s.m_appendLastMinibatch = true →
            s.m_epochSize - s.m_currEpochSampleCount = total / s.m_numberOfWorkers + 1 →
            s.GetNextSequencesCount total
              = .ok ({ s with m_currEpochSampleCount := s.m_epochSize }, true))
          ∧ (s.m_appendLastMinibatch = false →
            s.m_epochSize - s.m_currEpochSampleCount ≤ total / s.m_numberOfWorkers →
            s.GetNextSequencesCount total
              = .ok ({ s with m_currEpochSampleCount := s.m_epochSize }, true))
          ∧ ((s.m_appendLastMinibatch = true
                ∧ 2 * (total / s.m_numberOfWorkers)
                    < s.m_epochSize - s.m_currEpochSampleCount)
              ∨ (s.m_appendLastMinibatch = false
                ∧ total / s.m_numberOfWorkers < s.m_epochSize - s.m_currEpochSampleCount) →
            s.GetNextSequencesCount total
              = .ok ({ s with m_currEpochSampleCount
                        := s.m_currEpochSampleCount + total / s.m_numberOfWorkers },
                     false)))) := by
  by_cases h1 : total = s.m_minibatchSize
  case neg =>
    have hcount : s.GetNextSequencesCount total = .error .minibatchSizeMismatch := by
      simp only [DataSource.GetNextSequencesCount, DataSource.GetNextSequencesPlan]
      rw [if_pos h1]
    constructor
    · simp [hcount, h1]
    · intro ht
      exact absurd ht h1
  subst h1
  by_cases h2 : s.m_minibatchSize / s.m_numberOfWorkers = 0
  case pos =>
    have hcount : s.GetNextSequencesCount s.m_minibatchSize
        = .error .moreWorkersThanSamples := by
      simp only [DataSource.GetNextSequencesCount, DataSource.GetNextSequencesPlan]
      rw [if_neg (by simp), if_pos h2]
    constructor
    · simp [hcount, h2]
    · intro _ hsc
      exact absurd h2 hsc
  by_cases hb : s.m_appendLastMinibatch = true
  · by_cases h3 : s.m_epochSize - s.m_currEpochSampleCount
        ≤ 2 * (s.m_minibatchSize / s.m_numberOfWorkers)
    · by_cases h4 : s.m_epochSize - s.m_currEpochSampleCount
          = s.m_minibatchSize / s.m_numberOfWorkers + 1
      · have hplan : s.GetNextSequencesPlan s.m_minibatchSize
            = .ok (s.m_epochSize - s.m_currEpochSampleCount, true) := by
          simp only [DataSource.GetNextSequencesPlan]
          rw [if_neg (by simp), if_neg h2, if_pos ⟨hb, h3⟩, if_neg (not_not_intro h4)]
        have hcons : s.m_currEpochSampleCount
            + (s.m_epochSize - s.m_currEpochSampleCount) = s.m_epochSize := by omega
        have hcount : s.GetNextSequencesCount s.m_minibatchSize
            = .ok ({ s with m_currEpochSampleCount := s.m_epochSize }, true) := by
          simp only [DataSource.GetNextSequencesCount, hplan]
          rw [hcons]
        constructor
        · simp [hcount, h2, h4]
        · intro _ _
          refine ⟨fun _ _ => hcount,
            fun hf _ => by rw [hf] at hb; exact absurd hb (by decide),
            fun hc => ?_⟩
          rcases hc with ⟨_, hgt⟩ | ⟨hf, _⟩
          · omega
          · rw [hf] at hb
            exact absurd hb (by decide)
      · have hcount : s.GetNextSequencesCount s.m_minibatchSize
            = .error .appendingMoreThanOneSample := by
          simp only [DataSource.GetNextSequencesCount, DataSource.GetNextSequencesPlan]
          rw [if_neg (by simp), if_neg h2, if_pos ⟨hb, h3⟩, if_pos h4]
        constructor
        · simp only [hcount]
          constructor
          · intro _
            exact Or.inr (Or.inr ⟨hb, h3, h4⟩)
          · intro _
            exact ⟨.appendingMoreThanOneSample, rfl⟩
        · intro _ _
          refine ⟨fun _ hr => absurd hr h4,
            fun hf _ => by rw [hf] at hb; exact absurd hb (by decide),
            fun hc => ?_⟩
          rcases hc with ⟨_, hgt⟩ | ⟨hf, _⟩
          · omega
          · rw [hf] at hb
            exact absurd hb (by decide)
    · have hcount : s.GetNextSequencesCount s.m_minibatchSize
          = .ok ({ s with m_currEpochSampleCount := s.m_currEpochSampleCount
                    + s.m_minibatchSize / s.m_numberOfWorkers }, false) := by
        simp only [DataSource.GetNextSequencesCount, DataSource.GetNextSequencesPlan]
        rw [if_neg (by simp), if_neg h2, if_neg (fun hc => h3 hc.2),
          if_neg (fun hc => by rw [hc.1] at hb; exact absurd hb (by decide))]
      constructor
      · simp [hcount, h2, h3]
      · intro _ _
        refine ⟨fun _ hr => by omega,
          fun hf _ => by rw [hf] at hb; exact absurd hb (by decide),
          fun hc => ?_⟩
        rcases hc with ⟨_, _⟩ | ⟨hf, _⟩
        · exact hcount
        · rw [hf] at hb
          exact absurd hb (by decide)
  · have hbf : s.m_appendLastMinibatch = false := by
      simpa using hb
    by_cases h5 : s.m_epochSize - s.m_currEpochSampleCount
        ≤ s.m_minibatchSize / s.m_numberOfWorkers
    · have hplan : s.GetNextSequencesPlan s.m_minibatchSize
          = .ok (s.m_epochSize - s.m_currEpochSampleCount, true) := by
        simp only [DataSource.GetNextSequencesPlan]
        rw [if_neg (by simp), if_neg h2,
          if_neg (fun hc => by rw [hbf] at hc; exact absurd hc.1 (by decide)),
          if_pos ⟨hbf, h5⟩]
      have hcons : s.m_currEpochSampleCount
          + (s.m_epochSize - s.m_currEpochSampleCount) = s.m_epochSize := by omega
      have hcount : s.GetNextSequencesCount s.m_minibatchSize
          = .ok ({ s with m_currEpochSampleCount := s.m_epochSize }, true) := by
        simp only [DataSource.GetNextSequencesCount, hplan]
        rw [hcons]
      constructor
      · simp [hcount, h2, hbf]
      · intro _ _
        refine ⟨fun ht _ => by rw [ht] at hbf; exact absurd hbf (by decide),
          fun _ _ => hcount, fun hc => ?_⟩
        rcases hc with ⟨ht, _⟩ | ⟨_, hgt⟩
        · rw [ht] at hbf
          exact absurd hbf (by decide)
        · omega
    · have hcount : s.GetNextSequencesCount s.m_minibatchSize
          = .ok ({ s with m_currEpochSampleCount := s.m_currEpochSampleCount
                    + s.m_minibatchSize / s.m_numberOfWorkers }, false) := by
        simp only [DataSource.GetNextSequencesCount, DataSource.GetNextSequencesPlan]
        rw [if_neg (by simp), if_neg h2,
          if_neg (fun hc => by rw [hbf] at hc; exact absurd hc.1 (by decide)),
          if_neg (fun hc => h5 hc.2)]
      constructor
      · simp [hcount, h2, hbf]
      · intro _ _
        refine ⟨fun ht _ => by rw [ht] at hbf; exact absurd hbf (by decide),
          fun _ hr => absurd hr h5, fun hc => ?_⟩
        rcases hc with ⟨ht, _⟩ | ⟨_, _⟩
        · rw [ht] at hbf
          exact absurd hbf (by decide)
        · exact hcount

/-- C10: after every successful GetNextSequences call on a state whose
consumed-sample counter does not exceed the worker epoch size, the new
consumed-sample counter still does not exceed the epoch size, and the
returned end-of-epoch flag is true exactly when the new counter equals
the epoch size, so a caller that reads until end of epoch satisfies the
StartEpoch precondition that consumed equals epoch size. -/
theorem C10_consumed_bounded_endOfEpoch_iff (s : DataSource) (total : Nat) (s2 : DataSource) (eoe : Bool)
    (hinv : s.m_currEpochSampleCount ≤ s.m_epochSize)
    (h : s.GetNextSequencesCount total = .ok (s2, eoe)) :
    s2.m_currEpochSampleCount ≤ s2.m_epochSize
      ∧ (eoe = true ↔ s2.m_currEpochSampleCount = s2.m_epochSize) := by
  by_cases h1 : total = s.m_minibatchSize
  case neg =>
    have hcount : s.GetNextSequencesCount total = .error .minibatchSizeMismatch := by
      simp only [DataSource.GetNextSequencesCount, DataSource.GetNextSequencesPlan]
      rw [if_pos h1]
    rw [hcount] at h
    simp at h
  subst h1
  by_cases h2 : s.m_minibatchSize / s.m_numberOfWorkers = 0
  case pos =>
    have hcount : s.GetNextSequencesCount s.m_minibatchSize
        = .error .moreWorkersThanSamples := by
      simp only [DataSource.GetNextSequencesCount, DataSource.GetNextSequencesPlan]
      rw [if_neg (by simp), if_pos h2]
    rw [hcount] at h
    simp at h
  by_cases hb : s.m_appendLastMinibatch = true
  · by_cases h3 : s.m_epochSize - s.m_currEpochSampleCount
        ≤ 2 * (s.m_minibatchSize / s.m_numberOfWorkers)
    · by_cases h4 : s.m_epochSize - s.m_currEpochSampleCount
          = s.m_minibatchSize / s.m_numberOfWorkers + 1
      · have hcons : s.m_currEpochSampleCount
            + (s.m_epochSize - s.m_currEpochSampleCount) = s.m_epochSize := by omega
        have hplan : s.GetNextSequencesPlan s.m_minibatchSize
            = .ok (s.m_epochSize - s.m_currEpochSampleCount, true) := by
          simp only [DataSource.GetNextSequencesPlan]
          rw [if_neg (by simp), if_neg h2, if_pos ⟨hb, h3⟩, if_neg (not_not_intro h4)]
        have hcount : s.GetNextSequencesCount s.m_minibatchSize
            = .ok ({ s with m_currEpochSampleCount := s.m_epochSize }, true) := by
          simp only [DataSource.GetNextSequencesCount, hplan]
          rw [hcons]
        rw [hcount] at h
        simp at h
        obtain ⟨hs2, heoe⟩ := h
        subst hs2
        subst heoe
        simp
      · have hcount : s.GetNextSequencesCount s.m_minibatchSize
            = .error .appendingMoreThanOneSample := by
          simp only [DataSource.GetNextSequencesCount, DataSource.GetNextSequencesPlan]
          rw [if_neg (by simp), if_neg h2, if_pos ⟨hb, h3⟩, if_pos h4]
        rw [hcount] at h
        simp at h
    · have hcount : s.GetNextSequencesCount s.m_minibatchSize
          = .ok ({ s with m_currEpochSampleCount := s.m_currEpochSampleCount
                    + s.m_minibatchSize / s.m_numberOfWorkers }, false) := by
        simp only [DataSource.GetNextSequencesCount, DataSource.GetNextSequencesPlan]
        rw [if_neg (by simp), if_neg h2, if_neg (fun hc => h3 hc.2),
          if_neg (fun hc => by rw [hc.1] at hb; exact absurd hb (by decide))]
      rw [hcount] at h
      simp at h
      obtain ⟨hs2, heoe⟩ := h
      subst hs2
      subst heoe
      simp
      omega
  · have hbf : s.m_appendLastMinibatch = false := by
      simpa using hb
    by_cases h5 : s.m_epochSize - s.m_currEpochSampleCount
        ≤ s.m_minibatchSize / s.m_numberOfWorkers
    · have hcons : s.m_currEpochSampleCount
          + (s.m_epochSize - s.m_currEpochSampleCount) = s.m_epochSize := by omega
      have hplan : s.GetNextSequencesPlan s.m_minibatchSize
          = .ok (s.m_epochSize - s.m_currEpochSampleCount, true) := by
        simp only [DataSource.GetNextSequencesPlan]
        rw [if_neg (by simp), if_neg h2,
          if_neg (fun hc => by rw [hbf] at hc; exact absurd hc.1 (by decide)),
          if_pos ⟨hbf, h5⟩]
      have hcount : s.GetNextSequencesCount s.m_minibatchSize
          = .ok ({ s with m_currEpochSampleCount := s.m_epochSize }, true) := by
        simp only [DataSource.GetNextSequencesCount, hplan]
        rw [hcons]
      rw [hcount] at h
      simp at h
      obtain ⟨hs2, heoe⟩ := h
      subst hs2
      subst heoe
      simp
    · have hcount : s.GetNextSequencesCount s.m_minibatchSize
          = .ok ({ s with m_currEpochSampleCount := s.m_currEpochSampleCount
                    + s.m_minibatchSize / s.m_numberOfWorkers }, false) := by
        simp only [DataSource.GetNextSequencesCount, DataSource.GetNextSequencesPlan]
        rw [if_neg (by simp), if_neg h2,
          if_neg (fun hc => by rw [hbf] at hc; exact absurd hc.1 (by decide)),
          if_neg (fun hc => h5 hc.2)]
      rw [hcount] at h
      simp at h
      obtain ⟨hs2, heoe⟩ := h
      subst hs2
      subst heoe
      simp
      omega

/-- C3 witness: a concrete append-last-minibatch call at the boundary
remaining = sampleCount + 1 consumes all three remaining samples and ends
the epoch. -/
theorem C3_GetNextSequences_count_protocol_witness :
    (4 : Nat) ≤ 7 ∧
      DataSource.GetNextSequencesCount ⟨6, true, 0, 3, 7, 4, false⟩ 6
        = .ok (⟨6, true, 0, 3, 7, 7, false⟩, true) :=
  ⟨by decide,
    ((C3_GetNextSequences_count_protocol ⟨6, true, 0, 3, 7, 4, false⟩ 6 (by decide)).2 rfl (by decide)).1 rfl (by decide)⟩

/-- C10 witness: a concrete mid-epoch call leaves the counter below the
epoch size and reports no end of epoch. -/
theorem C10_consumed_bounded_endOfEpoch_iff_witness :
    (⟨4, false, 0, 2, 3, 2, false⟩ : DataSource).m_currEpochSampleCount
        ≤ (⟨4, false, 0, 2, 3, 2, false⟩ : DataSource).m_epochSize
      ∧ (false = true ↔
          (⟨4, false, 0, 2, 3, 2, false⟩ : DataSource).m_currEpochSampleCount
            = (⟨4, false, 0, 2, 3, 2, false⟩ : DataSource).m_epochSize) :=
  C10_consumed_bounded_endOfEpoch_iff ⟨4, false, 0, 2, 3, 0, false⟩ 4 ⟨4, false, 0, 2, 3, 2, false⟩ false
    (by decide) rfl

/-! ## Helper lemmas about the sparse conversion loop -/

/-- Unsigned wraparound of outChannels - 1 is the plain predecessor for
positive outChannels within the size_t range. -/
theorem channelOutOfRange_modulus (oc : Nat) (h1 : 0 < oc) (h2 : oc ≤ sizeTModulus) :
    (oc + sizeTModulus - 1) % sizeTModulus = oc - 1 := by
  unfold sizeTModulus at *
  omega

/-- The range check fires exactly on labels outside [0, outChannels). -/
theorem channelOutOfRange_true_iff (oc : Nat) (c : Int) (h1 : 0 < oc)
    (h2 : oc ≤ sizeTModulus) :
    channelOutOfRange oc c = true ↔ c < 0 ∨ (oc : Int) ≤ c := by
  simp only [channelOutOfRange, channelOutOfRange_modulus oc h1 h2,
    Bool.or_eq_true, decide_eq_true_eq]
  omega

/-- The range check passes exactly on labels inside [0, outChannels). -/
theorem channelOutOfRange_false_iff (oc : Nat) (c : Int) (h1 : 0 < oc)
    (h2 : oc ≤ sizeTModulus) :
    channelOutOfRange oc c = false ↔ 0 ≤ c ∧ c < (oc : Int) := by
  simp only [channelOutOfRange, channelOutOfRange_modulus oc h1 h2,
    Bool.or_eq_false_iff, decide_eq_false_iff_not, not_lt]
  omega

/-- When every non-ignored label passes the range check, the conversion
loop succeeds and produces the one-hot index at every position. -/
theorem convertIndices_ok (oc sp : Nat) (ig : Option Int) :
    ∀ (data : List Int) (start : Nat),
      (∀ c ∈ data, (∀ i, ig = some i → c ≠ i) → channelOutOfRange oc c = false) →
      ∃ idxs, convertIndices oc sp ig start data = .ok idxs
        ∧ idxs.length = data.length
        ∧ ∀ j, j < data.length →
            idxs.getD j 0 = oneHotIndex sp ig (start + j) (data.getD j 0) := by
  intro data
  induction data with
  | nil =>
    intro start _
    exact ⟨[], rfl, rfl, fun j hj => absurd hj (Nat.not_lt_zero j)⟩
  | cons c rest ih =>
    intro start h
    have hc : sparseIndexAt oc sp ig start c = .ok (oneHotIndex sp ig start c) := by
      unfold sparseIndexAt oneHotIndex
      cases ig with
      | some i =>
        by_cases hci : c = i
        · simp [hci]
        · have hpass := h c (List.mem_cons_self c rest)
            (fun i' hi' => by rw [Option.some.injEq] at hi'; rw [← hi']; exact hci)
          simp [hci, hpass]
      | none =>
        have hpass := h c (List.mem_cons_self c rest) (fun i hi => by cases hi)
        simp [hpass]
    obtain ⟨idxs, hconv, hlen, hval⟩ :=
      ih (start + 1) (fun x hx => h x (List.mem_cons_of_mem c hx))
    refine ⟨oneHotIndex sp ig start c :: idxs, ?_, by simp [hlen], ?_⟩
    · unfold convertIndices
      rw [hc, hconv]
    · intro j hj
      cases j with
      | zero => simp
      | succ k =>
        simp only [List.getD_cons_succ]
        have hv := hval k (by simpa using hj)
        have harg : start + 1 + k = start + (k + 1) := by omega
        rw [harg] at hv
        exact hv

/-- A non-ignored out-of-range label anywhere in the buffer makes the
conversion loop fail. -/
theorem convertIndices_error_of_exists (oc sp : Nat) (ig : Option Int) :
    ∀ (data : List Int) (start : Nat),
      (∃ c ∈ data, (∀ i, ig = some i → c ≠ i) ∧ channelOutOfRange oc c = true) →
      ∃ er, convertIndices oc sp ig start data = .error er := by
  intro data
  induction data with
  | nil =>
    intro start h
    simp at h
  | cons c rest ih =>
    intro start h
    rcases h with ⟨x, hx, hnotig, hbad⟩
    rcases List.mem_cons.mp hx with rfl | hxr
    · have hc : sparseIndexAt oc sp ig start x = .error .invalidChannelValue := by
        unfold sparseIndexAt
        cases ig with
        | some i =>
          have hne : x ≠ i := hnotig i rfl
          simp [hne, hbad]
        | none =>
          simp [hbad]
      refine ⟨.invalidChannelValue, ?_⟩
      unfold convertIndices
      rw [hc]
    · cases hfirst : sparseIndexAt oc sp ig start c with
      | error er =>
        refine ⟨er, ?_⟩
        unfold convertIndices
        rw [hfirst]
      | ok idx =>
        obtain ⟨er, her⟩ := ih (start + 1) ⟨x, hxr, hnotig, hbad⟩
        refine ⟨er, ?_⟩
        unfold convertIndices
        rw [hfirst, her]

/-- The conversion loop fails exactly when some non-ignored label is out
of channel range. -/
theorem convertIndices_error_iff (oc sp : Nat) (ig : Option Int)
    (data : List Int) (start : Nat) :
    (∃ er, convertIndices oc sp ig start data = .error er) ↔
      ∃ c ∈ data, (∀ i, ig = some i → c ≠ i) ∧ channelOutOfRange oc c = true := by
  constructor
  · intro he
    by_contra hnot
    push_neg at hnot
    have hall : ∀ c ∈ data, (∀ i, ig = some i → c ≠ i) → channelOutOfRange oc c = false := by
      intro c hc hni
      have := hnot c hc hni
      simpa using this
    obtain ⟨idxs, hok, _, _⟩ := convertIndices_ok oc sp ig data start hall
    obtain ⟨er, her⟩ := he
    rw [hok] at her
    cases her
  · exact convertIndices_error_of_exists oc sp ig data start

/-! ## Claims about the per-sample sequence construction (C5, C6, C7) -/

/-- C5: for a sparse stream whose labels never match an ignore sentinel,
the label buffer must have exactly spatial0 * spatial1 elements (fatal
unexpected-sparse-data-count otherwise); on the correct length the built
sparse sequence has all values 1.0, nonzero count equal to the spatial
size (one nonzero per position), and flat one-hot index
label * spatialSize + position at every position. -/
theorem C5_sparse_one_hot (dims : Nat × Nat × Nat) (ig : Option Int) (ismpl : Nat) (data : List Int)
    (hoc1 : 0 < dims.2.2) (hoc2 : dims.2.2 ≤ sizeTModulus)
    (hnoig : ∀ c ∈ data, ∀ i, ig = some i → c ≠ i)
    (hrange : ∀ c ∈ data, 0 ≤ c ∧ c < (dims.2.2 : Int)) :
    (data.length ≠ dims.1 * dims.2.1 →
      buildSparseSequence dims ig ismpl data = .error .unexpectedSparseDataCount)
    ∧ (data.length = dims.1 * dims.2.1 →
      ∃ seq mask, buildSparseSequence dims ig ismpl data = .ok (seq, mask)
        ∧ seq.m_valuesMemory = List.replicate (dims.1 * dims.2.1) 1
        ∧ seq.m_nnzCounts = [dims.1 * dims.2.1]
        ∧ seq.m_totalNnzCount = dims.1 * dims.2.1
        ∧ seq.m_indicesMemory.length = dims.1 * dims.2.1
        ∧ ∀ j, j < data.length →
            seq.m_indicesMemory.getD j 0
              = (data.getD j 0).toNat * (dims.1 * dims.2.1) + j) := by
  constructor
  · intro hne
    unfold buildSparseSequence
    rw [if_pos hne]
  · intro hlen
    have hall : ∀ c ∈ data, (∀ i, ig = some i → c ≠ i) →
        channelOutOfRange dims.2.2 c = false :=
      fun c hc _ => (channelOutOfRange_false_iff _ c hoc1 hoc2).mpr (hrange c hc)
    obtain ⟨idxs, hok, hilen, hival⟩ :=
      convertIndices_ok dims.2.2 (dims.1 * dims.2.1) ig data 0 hall
    refine ⟨{ m_id := ismpl, m_numberOfSamples := 1, m_nnzCounts := [data.length],
              m_totalNnzCount := data.length,
              m_valuesMemory := List.replicate data.length 1,
              m_indicesMemory := idxs },
            ig.map (fun i =>
              ({ m_id := ismpl,
                 m_numberOfSamples := 1,
                 m_sampleLayout := (dims.1, dims.2.1, 1),
                 m_ownedData := data.map (fun c => if c = i then (0 : ℚ) else 1) } :
                DenseSequenceDataIds)),
            ?_, ?_, ?_, ?_, ?_, ?_⟩
    · unfold buildSparseSequence
      rw [if_neg (not_not_intro hlen), hok]
    · rw [hlen]
    · rw [hlen]
    · rw [hlen]
    · rw [hilen, hlen]
    · intro j hj
      have hv := hival j hj
      rw [hv]
      have hmem : data.getD j 0 ∈ data := by
        rw [List.getD_eq_getElem data 0 hj]
        exact List.getElem_mem hj
      cases ig with
      | none =>
        simp only [oneHotIndex]
        rw [Nat.zero_add]
      | some i =>
        have hne := hnoig _ hmem i rfl
        simp only [oneHotIndex]
        rw [if_neg hne, Nat.zero_add]

/-- C6: for a sparse stream paired with an ignore sub-stream and a label
buffer of the right length, construction fails exactly when some
non-sentinel label lies outside [0, outChannels); on success the dense
mask holds 1 everywhere except 0 at sentinel positions, with spatial
layout (spatial0, spatial1, 1), and the sparse index at every sentinel
position is the in-range channel-0 slot, namely the position itself. -/
theorem C6_ignore_mask (dims : Nat × Nat × Nat) (ig : Int) (ismpl : Nat) (data : List Int)
    (hoc1 : 0 < dims.2.2) (hoc2 : dims.2.2 ≤ sizeTModulus)
    (hlen : data.length = dims.1 * dims.2.1) :
    ((∃ er, buildSparseSequence dims (some ig) ismpl data = .error er)
      ↔ ∃ c ∈ data, c ≠ ig ∧ (c < 0 ∨ (dims.2.2 : Int) ≤ c))
    ∧ ((∀ c ∈ data, c ≠ ig → 0 ≤ c ∧ c < (dims.2.2 : Int)) →
      ∃ seq maskSeq,
        buildSparseSequence dims (some ig) ismpl data = .ok (seq, some maskSeq)
          ∧ maskSeq.m_ownedData = data.map (fun c => if c = ig then (0 : ℚ) else 1)
          ∧ maskSeq.m_sampleLayout = (dims.1, dims.2.1, 1)
          ∧ maskSeq.m_numberOfSamples = 1
          ∧ seq.m_indicesMemory.length = data.length
          ∧ (∀ j, j < data.length → data.getD j 0 = ig →
              seq.m_indicesMemory.getD j 0 = j)) := by
  constructor
  · have hiff : (∃ er, buildSparseSequence dims (some ig) ismpl data = .error er)
        ↔ (∃ er, convertIndices dims.2.2 (dims.1 * dims.2.1) (some ig) 0 data
            = .error er) := by
      constructor
      · rintro ⟨er, her⟩
        simp only [buildSparseSequence] at her
        rw [if_neg (not_not_intro hlen)] at her
        cases hconv : convertIndices dims.2.2 (dims.1 * dims.2.1) (some ig) 0 data with
        | error er2 => exact ⟨er2, rfl⟩
        | ok idxs =>
          rw [hconv] at her
          cases her
      · rintro ⟨er, her⟩
        refine ⟨er, ?_⟩
        unfold buildSparseSequence
        rw [if_neg (not_not_intro hlen), her]
    rw [hiff, convertIndices_error_iff]
    constructor
    · rintro ⟨c, hc, hni, hbad⟩
      exact ⟨c, hc, hni ig rfl, (channelOutOfRange_true_iff _ c hoc1 hoc2).mp hbad⟩
    · rintro ⟨c, hc, hne, hout⟩
      refine ⟨c, hc, fun i hi => ?_, (channelOutOfRange_true_iff _ c hoc1 hoc2).mpr hout⟩
      rw [Option.some.injEq] at hi
      rw [← hi]
      exact hne
  · intro hval
    have hall : ∀ c ∈ data, (∀ i, (some ig : Option Int) = some i → c ≠ i) →
        channelOutOfRange dims.2.2 c = false := by
      intro c hc hni
      exact (channelOutOfRange_false_iff _ c hoc1 hoc2).mpr (hval c hc (hni ig rfl))
    obtain ⟨idxs, hok, hilen, hival⟩ :=
      convertIndices_ok dims.2.2 (dims.1 * dims.2.1) (some ig) data 0 hall
    refine ⟨{ m_id := ismpl, m_numberOfSamples := 1, m_nnzCounts := [data.length],
              m_totalNnzCount := data.length,
              m_valuesMemory := List.replicate data.length 1,
              m_indicesMemory := idxs },
            { m_id := ismpl, m_numberOfSamples := 1,
              m_sampleLayout := (dims.1, dims.2.1, 1),
              m_ownedData := data.map (fun c => if c = ig then (0 : ℚ) else 1) },
            ?_, rfl, rfl, rfl, hilen, ?_⟩
    · unfold buildSparseSequence
      rw [if_neg (not_not_intro hlen), hok]
      rfl
    · intro j hj hig
      have hv := hival j hj
      rw [hv, hig]
      simp [oneHotIndex]

/-- C7: for a dense stream without an ignore sub-stream, the built dense
sequence owns exactly the buffer the adapter blob held before the
transfer, has numberOfSamples 1 and the probed blob shape with its
dimension order reversed, and the adapter slot is left holding the
swapped-in empty buffer. -/
theorem C7_dense_move (e : ImageDatasetExample) (name : String) (ismpl : Nat) (i : Nat)
    (hfind : e.m_blobNames.findIdx? (fun n => n == name) = some i) :
    ∃ seq e2, buildDenseSequence e name false ismpl = .ok (seq, e2)
      ∧ seq.m_ownedData = e.m_blobs.getD i []
      ∧ seq.m_numberOfSamples = 1
      ∧ seq.m_sampleLayout = ((e.m_blob_shapes.getD i (0, 0, 0)).2.2,
          (e.m_blob_shapes.getD i (0, 0, 0)).2.1, (e.m_blob_shapes.getD i (0, 0, 0)).1)
      ∧ e2.m_blobs = e.m_blobs.set i [] := by
  have hidx : e.BlobIndexFromName name = .ok i := by
    unfold ImageDatasetExample.BlobIndexFromName
    rw [hfind]
  refine ⟨{ m_id := ismpl, m_numberOfSamples := 1,
            m_sampleLayout := ((e.m_blob_shapes.getD i (0, 0, 0)).2.2,
              (e.m_blob_shapes.getD i (0, 0, 0)).2.1,
              (e.m_blob_shapes.getD i (0, 0, 0)).1),
            m_ownedData := e.m_blobs.getD i [] },
          { e with m_blobs := e.m_blobs.set i [] }, ?_, rfl, rfl, rfl, rfl⟩
  simp [buildDenseSequence, ImageDatasetExample.GetBlobShape,
    ImageDatasetExample.SwapBlobData, hidx]

/-- C5 witness: label array [2,0,1] with spatialSize 3 and outChannels 3
gives indices [6,1,5], values all 1, and nnz count 3. -/
theorem C5_sparse_one_hot_witness :
    ∃ seq mask, buildSparseSequence (3, 1, 3) none 0 [2, 0, 1] = .ok (seq, mask)
      ∧ seq.m_valuesMemory = List.replicate 3 1
      ∧ seq.m_nnzCounts = [3]
      ∧ seq.m_totalNnzCount = 3
      ∧ seq.m_indicesMemory.length = 3
      ∧ seq.m_indicesMemory.getD 0 0 = 6
      ∧ seq.m_indicesMemory.getD 1 0 = 1
      ∧ seq.m_indicesMemory.getD 2 0 = 5 := by
  obtain ⟨seq, mask, h, hv, hn, ht, hl, hj⟩ :=
    (C5_sparse_one_hot (3, 1, 3) none 0 [2, 0, 1] (by decide) (by decide)
      (by intro c hc i hi; cases hi) (by decide)).2 rfl
  refine ⟨seq, mask, h, hv, hn, ht, hl, ?_, ?_, ?_⟩
  · simpa using hj 0 (by decide)
  · simpa using hj 1 (by decide)
  · simpa using hj 2 (by decide)

/-- C6 witness: sentinel 2 and labels [2,1,0] give mask [0,1,1] and the
forced index 0 at position 0. -/
theorem C6_ignore_mask_witness :
    ∃ seq maskSeq, buildSparseSequence (3, 1, 3) (some 2) 0 [2, 1, 0]
        = .ok (seq, some maskSeq)
      ∧ maskSeq.m_ownedData = [0, 1, 1]
      ∧ maskSeq.m_sampleLayout = (3, 1, 1)
      ∧ seq.m_indicesMemory.getD 0 0 = 0 := by
  obtain ⟨seq, maskSeq, h, hm, hlay, _, _, hj⟩ :=
    (C6_ignore_mask (3, 1, 3) 2 0 [2, 1, 0] (by decide) (by decide) (by decide)).2 (by decide)
  refine ⟨seq, maskSeq, h, ?_, hlay, ?_⟩
  · rw [hm]
    decide
  · exact hj 0 (by decide) (by decide)

/-- C7 witness: blob [1,2,3] with shape (1,1,3) moves unchanged into the
sequence with reversed shape (3,1,1), leaving the adapter slot empty. -/
theorem C7_dense_move_witness :
    ∃ seq e2, buildDenseSequence
        ⟨["labels", "features"], [[5], [1, 2, 3]], [(1, 1, 1), (1, 1, 3)]⟩
        "features" false 0 = .ok (seq, e2)
      ∧ seq.m_ownedData = [1, 2, 3]
      ∧ seq.m_numberOfSamples = 1
      ∧ seq.m_sampleLayout = (3, 1, 1)
      ∧ e2.m_blobs = [[5], []] := by
  obtain ⟨seq, e2, h, hd, hn, hs, hb⟩ :=
    C7_dense_move ⟨["labels", "features"], [[5], [1, 2, 3]], [(1, 1, 1), (1, 1, 3)]⟩
      "features" 0 1 rfl
  refine ⟨seq, e2, h, ?_, hn, ?_, ?_⟩
  · rw [hd]
    rfl
  · rw [hs]
    rfl
  · rw [hb]
    rfl
